import Mathlib

/-!
Shallow embedding of the Cloud platform environment (`package cloud`):
path-addressed file and directory operations dispatching between a local
filesystem backend and a Google Cloud Storage (GCS) backend, plus the
root-directory resolver, the in-process leader-election gate, and the
file-watch entry point.

Paths and object keys are modelled as `String` over ASCII characters, so
Go's byte-indexed operations (`strings.TrimPrefix`, `strings.Cut`,
`path/filepath.Clean`) coincide with the character-indexed Lean versions
used here.  The GCS service and the operating system are external
collaborators of this package; they are modelled as deterministic stores
(an association list of objects per bucket/key, and a flat path-to-entry
map with an explicit set of I/O-failing paths).  Transient network faults
are not modelled.
-/

/-- Error conditions distinguished by the package (`saxml/common/errors`
sentinels plus undifferentiated wrapped backend failures). -/
inductive Err where
  | failedPrecondition
  | invalidArgument
  | unimplemented
  | notFound
  | ioError
deriving DecidableEq, Repr

/-- Decidable equality for `Except`, so that concrete runs of the modelled
operations can be checked by `decide`. -/
def exceptDecEq {ε α : Type} [DecidableEq ε] [DecidableEq α] :
    (a b : Except ε α) → Decidable (a = b)
  | .error x, .error y =>
    match decEq x y with
    | isTrue h => isTrue (by rw [h])
    | isFalse h => isFalse (by intro hh; injection hh; contradiction)
  | .error _, .ok _ => isFalse (by intro hh; exact Except.noConfusion hh)
  | .ok _, .error _ => isFalse (by intro hh; exact Except.noConfusion hh)
  | .ok x, .ok y =>
    match decEq x y with
    | isTrue h => isTrue (by rw [h])
    | isFalse h => isFalse (by intro hh; injection hh; contradiction)

instance {ε α : Type} [DecidableEq ε] [DecidableEq α] : DecidableEq (Except ε α) :=
  exceptDecEq

/-- Constant `gcsURLPrefix = "gs://"`: sax_root values with this scheme are
interpreted as Google Cloud Storage paths. -/
def gcsURLPrefix : String := "gs://"

/-- Constant `gcsPathPrefix = "/gcs/"`: the internal path form GCS URLs are
converted to. -/
def gcsPathPrefix : String := "/gcs/"

/-- Constant `metadataFile = "METADATA"`: the empty placeholder object that
stands in for a directory on GCS. -/
def metadataFile : String := "METADATA"

/-- Go `strings.HasPrefix s pre`. -/
def strHasPrefix (s pre : String) : Bool := pre.toList.isPrefixOf s.toList

/-- Go `strings.TrimPrefix s pre`: drop `pre` from the front when present,
otherwise return `s` unchanged. -/
def strTrimPrefix (s pre : String) : String :=
  if strHasPrefix s pre then s.drop pre.length else s

/-- Helper for Go `strings.Contains`: does `sub` occur inside `l`? -/
def hasSubstrL (sub : List Char) : List Char → Bool
  | [] => sub.isEmpty
  | c :: r => sub.isPrefixOf (c :: r) || hasSubstrL sub r

/-- Go `strings.Contains s sub`. -/
def strContains (s sub : String) : Bool := hasSubstrL sub.toList s.toList

/-- Go `strings.Cut s "/"` on the character list: split at the first `'/'`,
returning the parts before and after it, or `none` when no `'/'` occurs. -/
def cutL : List Char → Option (List Char × List Char)
  | [] => none
  | c :: r => if c = '/' then some ([], r) else (cutL r).map fun p => (c :: p.1, p.2)

/-- Embedding of `gcsBucketAndObject`: fails with a failed-precondition
condition when no GCS client was established at startup (`gcsClient == nil`),
otherwise strips the internal `/gcs/` prefix and cuts the remainder at the
first `/` into a (bucket, object) pair, failing with an invalid-argument
condition when no `/` exists.  `client` is true iff the store handle is
present. -/
def gcsBucketAndObject (client : Bool) (path : String) : Except Err (String × String) :=
  if client = false then .error .failedPrecondition
  else
    let p := strTrimPrefix path gcsPathPrefix
    match cutL p.toList with
    | none => .error .invalidArgument
    | some (b, k) => .ok (String.mk b, String.mk k)

theorem cutL_eq_none_iff (l : List Char) : cutL l = none ↔ '/' ∉ l := by
  induction l with
  | nil => simp [cutL]
  | cons c r ih =>
    by_cases hc : c = '/'
    · subst hc; simp [cutL]
    · simp [cutL, hc, Option.map_eq_none, ih, Ne.symm hc]

theorem cutL_of_mem (l : List Char) (h : '/' ∈ l) :
    ∃ a b, cutL l = some (a, b) ∧ l = a ++ '/' :: b ∧ '/' ∉ a := by
  induction l with
  | nil => cases h
  | cons c r ih =>
    by_cases hc : c = '/'
    · subst hc
      exact ⟨[], r, by simp [cutL], rfl, by simp⟩
    · have hr : '/' ∈ r := by
        cases List.mem_cons.mp h with
        | inl h0 => exact absurd h0.symm hc
        | inr h0 => exact h0
      obtain ⟨a, b, hcut, heq, hmem⟩ := ih hr
      refine ⟨c :: a, b, ?_, ?_, ?_⟩
      · simp [cutL, hc, hcut]
      · simp [heq]
      · simp [hmem, Ne.symm hc]

/-- Helper for `pathClean`: is the scan position at the end of a path
element (end of input or a separator)? -/
def elemEnd : List Char → Bool
  | [] => true
  | c :: _ => c = '/'

/-- Helper for `pathClean`: does the input start with a lone `".."` element? -/
def dotDotAt : List Char → Bool
  | c :: r => c = '.' && elemEnd r
  | [] => false

/-- Helper for `pathClean`: copy one path element off the input, returning
the element's characters and the remaining input (which starts with a
separator or is empty). -/
def takeElem : List Char → List Char × List Char
  | [] => ([], [])
  | c :: r => if c = '/' then ([], c :: r) else
      let p := takeElem r
      (c :: p.1, p.2)

/-- Helper for `pathClean`'s `".."` case: Go's backtracking loop
`for out.w > dotdot && out.index(out.w) != '/' { out.w-- }`, on the output
buffer kept in reverse order; `c` is the character just dropped. -/
def popWhile (dd : Nat) (c : Char) : List Char → List Char
  | [] => []
  | c2 :: b2 =>
    if (c2 :: b2).length > dd ∧ c ≠ '/' then popWhile dd c2 b2 else c2 :: b2

/-- Main loop of Go `path.Clean` (which `path/filepath.Clean` equals on
Unix): the second list is the unread input, the third the output buffer in
reverse order, `dd` the index in the buffer where `".."` backtracking must
stop.  The loop is indexed by fuel so that it is structurally recursive and
computable by the kernel; every step consumes at least one input character,
so fuel equal to the input length always suffices. -/
def cleanLoop (rooted : Bool) : Nat → List Char → List Char → Nat → List Char
  | 0, _, buf, _ => buf
  | _ + 1, [], buf, _ => buf
  | fuel + 1, c :: r, buf, dd =>
    if c = '/' then
      cleanLoop rooted fuel r buf dd
    else if c = '.' ∧ elemEnd r then
      cleanLoop rooted fuel r buf dd
    else if c = '.' ∧ dotDotAt r then
      let bd : List Char × Nat :=
        if buf.length > dd then
          (match buf with
           | c0 :: b2 => popWhile dd c0 b2
           | [] => buf, dd)
        else if rooted = false then
          let b1 := if buf.length > 0 then '/' :: buf else buf
          let b2 := '.' :: '.' :: b1
          (b2, b2.length)
        else (buf, dd)
      cleanLoop rooted fuel r.tail bd.1 bd.2
    else
      let buf1 := if (rooted ∧ buf.length ≠ 1) ∨ (rooted = false ∧ buf.length ≠ 0)
        then '/' :: buf else buf
      let q := takeElem r
      cleanLoop rooted fuel q.2 (q.1.reverse ++ (c :: buf1)) dd

/-- Embedding of Go `path/filepath.Clean` on Unix: collapse repeated
separators, eliminate `"."` elements, resolve `".."` elements, returning
`"."` for an empty result. -/
def pathClean (p : String) : String :=
  if p = "" then "."
  else
    let l := p.toList
    let out := if l.head? = some '/'
      then cleanLoop true l.length l.tail ['/'] 1
      else cleanLoop false l.length l [] 0
    if out.length = 0 then "." else String.mk out.reverse

/-- Embedding of Go `path/filepath.Join a b` (two arguments, as used by
`CreateDir` and `DirExists`): join the non-empty arguments with `/` and
clean the result. -/
def joinPath (a b : String) : String :=
  if a = "" then (if b = "" then "" else pathClean b) else pathClean (a ++ "/" ++ b)

/-- Association-list lookup, used for both stores. -/
def getAssoc {κ α : Type} [DecidableEq κ] : List (κ × α) → κ → Option α
  | [], _ => none
  | (q, v) :: r, k => if q = k then some v else getAssoc r k

/-- Association-list upsert, used for both stores. -/
def putAssoc {κ α : Type} [DecidableEq κ] (es : List (κ × α)) (k : κ) (v : α) :
    List (κ × α) :=
  match es with
  | [] => [(k, v)]
  | (q, w) :: r => if q = k then (k, v) :: r else (q, w) :: putAssoc r k v

theorem getAssoc_putAssoc_same {κ α : Type} [DecidableEq κ]
    (es : List (κ × α)) (k : κ) (v : α) : getAssoc (putAssoc es k v) k = some v := by
  induction es with
  | nil => simp [putAssoc, getAssoc]
  | cons e r ih =>
    obtain ⟨q, w⟩ := e
    by_cases hq : q = k
    · simp [putAssoc, hq, getAssoc]
    · simp [putAssoc, hq, getAssoc, ih]

/-- A local filesystem entry: a regular file with its content bytes, or a
directory. -/
inductive FSEntry where
  | file (data : List Nat)
  | dir
deriving DecidableEq, Repr

/-- Model of the local filesystem seen through the `os` package: a flat map
from absolute path to entry, plus the set of paths on which `stat` (and
other syscalls) fail with an error that is neither success nor
"not exist" (e.g. a permission failure). -/
structure LocalFS where
  entries : List (String × FSEntry)
  ioFail : List String
deriving DecidableEq, Repr

/-- Outcome of Go `os.Stat` in this model. -/
inductive StatResult where
  | isDir
  | isFile
  | notExist
  | statError
deriving DecidableEq, Repr

/-- Model of `os.Stat`: an I/O-failing path yields an undifferentiated
error, otherwise the entry map decides between a directory, a regular
file, and "not exist". -/
def statOf (fs : LocalFS) (p : String) : StatResult :=
  if fs.ioFail.contains p then .statError
  else match getAssoc fs.entries p with
  | some .dir => .isDir
  | some (.file _) => .isFile
  | none => .notExist

/-- Model of `os.ReadFile`. -/
def osReadFile (fs : LocalFS) (p : String) : Except Err (List Nat) :=
  if fs.ioFail.contains p then .error .ioError
  else match getAssoc fs.entries p with
  | some (.file d) => .ok d
  | some .dir => .error .ioError
  | none => .error .notFound

/-- Model of `os.WriteFile` (mode 0644): create or truncate the file;
fails when the path names a directory or is an I/O-failing path. -/
def osWriteFile (fs : LocalFS) (p : String) (d : List Nat) : Except Err LocalFS :=
  if fs.ioFail.contains p then .error .ioError
  else match getAssoc fs.entries p with
  | some .dir => .error .ioError
  | _ => .ok { fs with entries := putAssoc fs.entries p (.file d) }

/-- Model of `os.Rename src dst`: move the entry at `src` onto `dst`,
replacing any file already there. -/
def osRename (fs : LocalFS) (src dst : String) : Except Err LocalFS :=
  if fs.ioFail.contains src ∨ fs.ioFail.contains dst then .error .ioError
  else match getAssoc fs.entries src with
  | none => .error .notFound
  | some e =>
      let es := (fs.entries.filter fun q => q.1 ≠ src)
      .ok { fs with entries := putAssoc es dst e }

/-- Model of `os.Mkdir` (inside `MkdirAll`): fails on an I/O-failing path
or an already-existing path, otherwise records a directory. -/
def osMkdir (fs : LocalFS) (p : String) : Except Err LocalFS :=
  if fs.ioFail.contains p then .error .ioError
  else match getAssoc fs.entries p with
  | some _ => .error .ioError
  | none => .ok { fs with entries := putAssoc fs.entries p .dir }

/-- Parent-path computation of Go `os.MkdirAll`: skip trailing separators,
scan backward over the last element, and recurse on `path[:j-1]` only when
`j > 1`. -/
def parentPath (p : String) : Option String :=
  let l := p.toList
  let r1 := l.reverse.dropWhile (fun c => c = '/')
  let r2 := r1.dropWhile (fun c => c ≠ '/')
  if r2.length > 1 then some (String.mk (l.take (r2.length - 1))) else none

/-- Fuel-indexed body of Go `os.MkdirAll`: return when the path is already
a directory, fail when it is a file, otherwise create the parent
recursively and then the path itself, accepting a concurrent win when the
final `Mkdir` fails but the path now stats as a directory. -/
def mkdirAllGo (fs : LocalFS) (p : String) : Nat → Except Err LocalFS
  | 0 => .error .ioError
  | n + 1 =>
    match statOf fs p with
    | .isDir => .ok fs
    | .isFile => .error .ioError
    | _ =>
      let step : Except Err LocalFS :=
        match parentPath p with
        | none => .ok fs
        | some par => mkdirAllGo fs par n
      match step with
      | .error e => .error e
      | .ok fs1 =>
        match osMkdir fs1 p with
        | .ok fs2 => .ok fs2
        | .error e => if statOf fs1 p = .isDir then .ok fs1 else .error e

/-- Model of `os.MkdirAll path 0777`, with enough fuel for the
parent-chain recursion (each parent is strictly shorter than its child). -/
def mkdirAll (fs : LocalFS) (p : String) : Except Err LocalFS :=
  mkdirAllGo fs p (p.length + 1)

/-- Is `e` an immediate child path of directory `d`, and if so what is its
entry name?  Used to model `os.ReadDir`'s view of the flat entry map. -/
def childNameOf (d e : String) : Option String :=
  let pre := d ++ "/"
  if strHasPrefix e pre then
    let n := e.drop pre.length
    if n ≠ "" ∧ ('/' ∈ n.toList) = False then some n else none
  else none

/-- Lexicographic string order used to model the sorted listings returned
by `os.ReadDir` and the GCS object iterator. -/
def strLeList : List Char → List Char → Bool
  | [], _ => true
  | _ :: _, [] => false
  | a :: as, b :: bs => if a = b then strLeList as bs else decide (a < b)

/-- Insert into a sorted list of strings. -/
def insertSorted (x : String) : List String → List String
  | [] => [x]
  | y :: ys => if strLeList x.toList y.toList then x :: y :: ys else y :: insertSorted x ys

/-- Insertion sort on strings. -/
def sortStrings : List String → List String
  | [] => []
  | x :: xs => insertSorted x (sortStrings xs)

/-- Model of `os.ReadDir`: fails unless the path stats as a directory,
otherwise returns the names of its immediate children in sorted order. -/
def osReadDir (fs : LocalFS) (p : String) : Except Err (List String) :=
  if fs.ioFail.contains p then .error .ioError
  else match getAssoc fs.entries p with
  | some .dir => .ok (sortStrings (fs.entries.filterMap fun q => childNameOf p q.1))
  | some (.file _) => .error .ioError
  | none => .error .notFound

/-- The fields of `storage.ObjectAttrs` that `ListSubdirs` consults: `Name`
(the full object key, empty on a synthetic prefix entry) and `Prefix` (set
only on a synthetic prefix entry produced by a delimiter query). -/
structure ObjAttrs where
  name : String
  attrPrefix : String
deriving DecidableEq, Repr

/-- One result of a GCS delimiter listing: an object key whose remainder
after the query prefix still contains the delimiter `/` is collapsed into
a synthetic prefix entry; otherwise the object itself is returned with its
full key as `Name`. -/
def collapseEntry (qPrefix key : String) : ObjAttrs :=
  let rest := key.drop qPrefix.length
  match cutL rest.toList with
  | some (seg, _) => { name := "", attrPrefix := qPrefix ++ String.mk seg ++ "/" }
  | none => { name := key, attrPrefix := "" }

/-- Collapse consecutive duplicate listing entries (a delimiter query
reports each common prefix once). -/
def dedupAdjacent : List ObjAttrs → List ObjAttrs
  | [] => []
  | [x] => [x]
  | x :: y :: r => if x = y then dedupAdjacent (y :: r) else x :: dedupAdjacent (y :: r)

/-- Model of iterating `bucket.Objects` with `storage.Query{Prefix, Delimiter: "/"}`:
the keys of bucket `b` that start with `qPrefix`, in lexicographic order,
each collapsed at the first delimiter past the prefix, with duplicate
prefix entries merged. -/
def gcsListObjects (objs : List ((String × String) × List Nat)) (b qPrefix : String) :
    List ObjAttrs :=
  let keys := (objs.filter fun o => o.1.1 = b ∧ strHasPrefix o.1.2 qPrefix).map
    fun o => o.1.2
  dedupAdjacent ((sortStrings keys).map (collapseEntry qPrefix))

/-- The state an `Env` operation can read or write: whether the GCS client
was established at startup (`gcsClient != nil`), the GCS object store as a
map from (bucket, key) to content bytes, the local filesystem, and the
suffix `fmt.Sprintf(".%d.%016x", time.Now().UnixNano(), rand.Uint64())`
that `WriteFileAtomically` appends to build its temporary path. -/
structure World where
  client : Bool
  objects : List ((String × String) × List Nat)
  fs : LocalFS
  tempSuffix : String
deriving DecidableEq, Repr

/-- Embedding of `Env.ReadFile`: a `/gcs/`-prefixed path is resolved and
read through the object store (a missing object surfaces as the wrapped
reader-open failure); any other path is read from the local filesystem. -/
def envReadFile (w : World) (path : String) : Except Err (List Nat) :=
  if strHasPrefix path gcsPathPrefix then
    match gcsBucketAndObject w.client path with
    | .error e => .error e
    | .ok (b, k) =>
      match getAssoc w.objects (b, k) with
      | none => .error .notFound
      | some d => .ok d
  else
    osReadFile w.fs path

/-- Embedding of `Env.ReadCachedFile`, which simply calls `Env.ReadFile`. -/
def envReadCachedFile (w : World) (path : String) : Except Err (List Nat) :=
  envReadFile w path

/-- Embedding of `Env.WriteFile`: a `/gcs/`-prefixed path is resolved and
the object is written in one shot; any other path goes through
`os.WriteFile` with mode 0644. -/
def envWriteFile (w : World) (path : String) (data : List Nat) : Except Err World :=
  if strHasPrefix path gcsPathPrefix then
    match gcsBucketAndObject w.client path with
    | .error e => .error e
    | .ok (b, k) => .ok { w with objects := putAssoc w.objects (b, k) data }
  else
    match osWriteFile w.fs path data with
    | .error e => .error e
    | .ok fs2 => .ok { w with fs := fs2 }

/-- Embedding of `Env.WriteFileAtomically`: a `/gcs/`-prefixed path
delegates to `Env.WriteFile`; any other path is written to a sibling
temporary file (target path plus the time-and-randomness suffix) which is
then renamed onto the target. -/
def envWriteFileAtomically (w : World) (path : String) (data : List Nat) :
    Except Err World :=
  if strHasPrefix path gcsPathPrefix then
    envWriteFile w path data
  else
    let tempPath := path ++ w.tempSuffix
    match osWriteFile w.fs tempPath data with
    | .error e => .error e
    | .ok fs2 =>
      match osRename fs2 tempPath path with
      | .error e => .error e
      | .ok fs3 => .ok { w with fs := fs3 }

/-- Embedding of `Env.FileExists`: on a `/gcs/`-prefixed path, fetch the
object's attributes, mapping "object does not exist" to `false`; on any
other path, stat it, failing with a failed-precondition condition when it
is a directory, mapping "not exist" to `false`, and propagating any other
stat failure. -/
def envFileExists (w : World) (path : String) : Except Err Bool :=
  if strHasPrefix path gcsPathPrefix then
    match gcsBucketAndObject w.client path with
    | .error e => .error e
    | .ok (b, k) =>
      match getAssoc w.objects (b, k) with
      | none => .ok false
      | some _ => .ok true
  else
    match statOf w.fs path with
    | .isDir => .error .failedPrecondition
    | .isFile => .ok true
    | .notExist => .ok false
    | .statError => .error .ioError

/-- Embedding of the `sax_root` normalization applied identically in both
the flag and the environment-variable branches of `Env.RootDir`: a value
with the `gs://` scheme has that scheme replaced by the internal `/gcs/`
prefix; any other value is returned unchanged. -/
def toInternalIfGcs (s : String) : String :=
  if strHasPrefix s gcsURLPrefix then gcsPathPrefix ++ strTrimPrefix s gcsURLPrefix
  else s

/-- The fixed test root `filepath.Join(os.TempDir(), "sax-test-root")`,
parametrized by the ambient temporary directory. -/
def testRoot (tmpDir : String) : String := joinPath tmpDir "sax-test-root"

/-- Embedding of `Env.RootDir`: test-mode detection (does `os.Args[0]`
contain `"_test"`?) wins over a non-empty `--sax_root` flag value, which
wins over a non-empty `SAX_ROOT` environment value, each of the latter two
normalized from URL form; `none` models `log.Fatal`, the process
terminating. -/
def rootDir (tmpDir args0 flagRoot envRoot : String) : Option String :=
  if strContains args0 "_test" then some (testRoot tmpDir)
  else if flagRoot ≠ "" then some (toInternalIfGcs flagRoot)
  else if envRoot ≠ "" then some (toInternalIfGcs envRoot)
  else none

/-- Embedding of `Env.CreateDir`: a non-empty ACL is rejected up front
with an unimplemented condition; a `/gcs/`-prefixed path gets a zero-length
marker object written at `filepath.Join(path, "METADATA")`; any other path
goes through `os.MkdirAll` with mode 0777. -/
def envCreateDir (w : World) (path acl : String) : Except Err World :=
  if acl ≠ "" then .error .unimplemented
  else if strHasPrefix path gcsPathPrefix then
    match gcsBucketAndObject w.client (joinPath path metadataFile) with
    | .error e => .error e
    | .ok (b, k) => .ok { w with objects := putAssoc w.objects (b, k) [] }
  else
    match mkdirAll w.fs path with
    | .error e => .error e
    | .ok fs2 => .ok { w with fs := fs2 }

/-- Embedding of `Env.ListSubdirs`: on a `/gcs/`-prefixed path, list the
resolved bucket with query prefix equal to the full (unstripped) path and
delimiter `/`, collecting each result's `Name` field; on any other path,
return the names of the directory's entries. -/
def envListSubdirs (w : World) (path : String) : Except Err (List String) :=
  if strHasPrefix path gcsPathPrefix then
    match gcsBucketAndObject w.client path with
    | .error e => .error e
    | .ok (b, _) => .ok ((gcsListObjects w.objects b path).map fun a => a.name)
  else
    osReadDir w.fs path

/-- Embedding of `Env.DirExists`: on a `/gcs/`-prefixed path, fetch the
attributes of the marker object at `filepath.Join(path, "METADATA")`,
mapping "object does not exist" to `false`; on any other path, stat it,
returning `true` iff it is a directory, failing with a failed-precondition
condition when it is a file, mapping "not exist" to `false`, and
propagating any other stat failure. -/
def envDirExists (w : World) (path : String) : Except Err Bool :=
  if strHasPrefix path gcsPathPrefix then
    match gcsBucketAndObject w.client (joinPath path metadataFile) with
    | .error e => .error e
    | .ok (b, k) =>
      match getAssoc w.objects (b, k) with
      | none => .ok false
      | some _ => .ok true
  else
    match statOf w.fs path with
    | .isDir => .ok true
    | .isFile => .error .failedPrecondition
    | .notExist => .ok false
    | .statError => .error .ioError

/-- The value `make(<-chan []byte)` that `Env.Watch` returns: a fresh
receive-only channel with no sender, so no content is ever delivered on
it. -/
structure SilentChan where
  mk ::
deriving DecidableEq, Repr

/-- Embedding of `Env.Watch`: it ignores the path and returns the no-op
channel together with a nil error. -/
def envWatch (_w : World) (_path : String) : Except Err SilentChan :=
  .ok ⟨⟩

/-- The process-wide leader-election gate `muLeader`: free, or held by the
one caller that most recently returned from `Env.Lead`. -/
inductive GateState where
  | free
  | held
deriving DecidableEq, Repr

/-- Embedding of `Env.Lead` as a step on the gate: `muLeader.Lock()`
returns (with the gate now held) when the gate is free, and blocks —
modelled as `none` — while it is held.  The `path` argument is not read by
the body at all. -/
def leadAcquire (_path : String) : GateState → Option GateState
  | .free => some .held
  | .held => none

/-- Embedding of closing the channel returned by `Env.Lead`: the goroutine
spawned by `Lead` unblocks from its receive and calls `muLeader.Unlock()`,
freeing the gate. -/
def closeLeadChan : GateState → GateState
  | _ => .free

theorem toList_mk (l : List Char) : (String.mk l).toList = l := rfl

theorem osMkdir_ok_statOf (fs fs2 : LocalFS) (p : String)
    (h : osMkdir fs p = .ok fs2) : statOf fs2 p = .isDir := by
  unfold osMkdir at h
  split at h
  · simp at h
  · next hio =>
    split at h
    · simp at h
    · simp only [Except.ok.injEq] at h
      subst h
      simp only [statOf, getAssoc_putAssoc_same]
      rw [if_neg (by simpa using hio)]

theorem mkdirAllGo_ok_statOf (fs fs2 : LocalFS) (p : String) (fuel : Nat)
    (h : mkdirAllGo fs p fuel = .ok fs2) : statOf fs2 p = .isDir := by
  cases fuel with
  | zero => simp [mkdirAllGo] at h
  | succ n =>
    rw [mkdirAllGo] at h
    cases hstat : statOf fs p with
    | isDir =>
      rw [hstat] at h
      simp only [Except.ok.injEq] at h
      subst h
      exact hstat
    | isFile => rw [hstat] at h; simp at h
    | notExist =>
      rw [hstat] at h
      simp only at h
      cases hstep : (match parentPath p with
          | none => Except.ok fs
          | some par => mkdirAllGo fs par n) with
      | error e => rw [hstep] at h; simp at h
      | ok fs1 =>
        rw [hstep] at h
        simp only at h
        cases hmk : osMkdir fs1 p with
        | ok fsn =>
          rw [hmk] at h
          simp only [Except.ok.injEq] at h
          subst h
          exact osMkdir_ok_statOf fs1 _ p hmk
        | error e =>
          rw [hmk] at h
          simp only at h
          by_cases hdir : statOf fs1 p = .isDir
          · simp only [hdir, if_true, Except.ok.injEq] at h
            subst h
            exact hdir
          · simp [hdir] at h
    | statError =>
      rw [hstat] at h
      simp only at h
      cases hstep : (match parentPath p with
          | none => Except.ok fs
          | some par => mkdirAllGo fs par n) with
      | error e => rw [hstep] at h; simp at h
      | ok fs1 =>
        rw [hstep] at h
        simp only at h
        cases hmk : osMkdir fs1 p with
        | ok fsn =>
          rw [hmk] at h
          simp only [Except.ok.injEq] at h
          subst h
          exact osMkdir_ok_statOf fs1 _ p hmk
        | error e =>
          rw [hmk] at h
          simp only at h
          by_cases hdir : statOf fs1 p = .isDir
          · simp only [hdir, if_true, Except.ok.injEq] at h
            subst h
            exact hdir
          · simp [hdir] at h

/-- C2 counterexample: `Env.Watch` does not fail at all — on a concrete
path it returns the no-op channel with a nil error rather than an
unimplemented condition, refuting the claim that every Watch call fails
with an unimplemented condition. -/
theorem watch_not_unimplemented :
    envWatch ⟨true, [], ⟨[], []⟩, ""⟩ "/sax/cell/addr" ≠ .error .unimplemented := by
  simp [envWatch]

/-- C2 (amended): for every state and path, requesting change-notification
on a file succeeds, returning the silent no-op channel (on which no
content is ever sent) and a nil error; change-notification is unsupported
silently, not via an unimplemented error. -/
theorem watch_returns_silent_channel (w : World) (path : String) :
    envWatch w path = .ok SilentChan.mk := rfl

/-- C4: the remote path resolver strips the internal `/gcs/` prefix and
splits the remainder at the first `/` separator into a (container, key)
pair; it fails with a failed-precondition condition when no remote store
handle was established at startup, fails with an invalid-argument
condition when the handle is present but no separator exists in the
stripped remainder, and succeeds with the pair (container before the
first separator, key after it) otherwise. -/
theorem gcsBucketAndObject_resolve (client : Bool) (path : String) :
    (client = false → gcsBucketAndObject client path = .error .failedPrecondition)
    ∧ (client = true → '/' ∉ (strTrimPrefix path gcsPathPrefix).toList →
        gcsBucketAndObject client path = .error .invalidArgument)
    ∧ (client = true → '/' ∈ (strTrimPrefix path gcsPathPrefix).toList →
        ∃ b k : String,
          gcsBucketAndObject client path = .ok (b, k)
          ∧ (strTrimPrefix path gcsPathPrefix).toList = b.toList ++ '/' :: k.toList
          ∧ '/' ∉ b.toList) := by
  refine ⟨fun hc => by simp [gcsBucketAndObject, hc], fun hc hm => ?_, fun hc hm => ?_⟩
  · have hn : cutL (strTrimPrefix path gcsPathPrefix).data = none :=
      (cutL_eq_none_iff (strTrimPrefix path gcsPathPrefix).toList).mpr hm
    simp [gcsBucketAndObject, hc, hn]
  · obtain ⟨a, b, hcut, heq, hnm⟩ :=
      cutL_of_mem (strTrimPrefix path gcsPathPrefix).toList hm
    have hcut2 : cutL (strTrimPrefix path gcsPathPrefix).data = some (a, b) := hcut
    refine ⟨String.mk a, String.mk b, ?_, ?_, ?_⟩
    · simp [gcsBucketAndObject, hc, hcut2]
    · rw [toList_mk, toList_mk]; exact heq
    · rw [toList_mk]; exact hnm

/-- C4 witness: with the handle present, the path `/gcs/bucket/obj/sub`
resolves to a concrete (container, key) pair. -/
theorem gcsBucketAndObject_resolve_witness :
    (true : Bool) = true
    ∧ '/' ∈ (strTrimPrefix "/gcs/bucket/obj/sub" gcsPathPrefix).toList
    ∧ ∃ b k : String,
        gcsBucketAndObject true "/gcs/bucket/obj/sub" = .ok (b, k)
        ∧ (strTrimPrefix "/gcs/bucket/obj/sub" gcsPathPrefix).toList =
            b.toList ++ '/' :: k.toList
        ∧ '/' ∉ b.toList :=
  ⟨rfl, by decide,
    (gcsBucketAndObject_resolve true "/gcs/bucket/obj/sub").2.2 rfl (by decide)⟩

/-- C5: CreateDir with a non-empty ACL argument fails with an
unimplemented condition for every state and path, remote or local,
well-formed or not; the rejection yields no successor state, so no
directory, marker object, or other backend effect occurs. -/
theorem createDir_nonempty_acl (w : World) (path acl : String) (h : acl ≠ "") :
    envCreateDir w path acl = .error .unimplemented := by
  simp [envCreateDir, h]

/-- C5 witness: a concrete non-empty ACL on a concrete path is rejected. -/
theorem createDir_nonempty_acl_witness :
    ("group:admins" : String) ≠ ""
    ∧ envCreateDir ⟨true, [], ⟨[], []⟩, ""⟩ "/gcs/bkt/cell" "group:admins" =
        .error .unimplemented :=
  ⟨by decide, createDir_nonempty_acl _ _ _ (by decide)⟩

/-- C8: on every `/gcs/`-prefixed path, WriteFileAtomically is the very
same operation as plain WriteFile — same result, same error, same backend
effect — with no temporary-file or rename step. -/
theorem writeFileAtomically_gcs_delegates (w : World) (path : String) (data : List Nat)
    (h : strHasPrefix path gcsPathPrefix = true) :
    envWriteFileAtomically w path data = envWriteFile w path data := by
  simp [envWriteFileAtomically, h]

/-- C8 witness: a concrete remote write delegates. -/
theorem writeFileAtomically_gcs_delegates_witness :
    strHasPrefix "/gcs/bkt/file" gcsPathPrefix = true
    ∧ envWriteFileAtomically ⟨true, [], ⟨[], []⟩, ".99.temp"⟩ "/gcs/bkt/file" [1, 2] =
        envWriteFile ⟨true, [], ⟨[], []⟩, ".99.temp"⟩ "/gcs/bkt/file" [1, 2] :=
  ⟨by decide, writeFileAtomically_gcs_delegates _ _ _ (by decide)⟩

/-- C9: the election gate gives in-process mutual exclusion independent of
the path argument: an Acquire on the free gate succeeds; after the first
call's signal channel is closed the gate is free again, so a second
sequential Acquire (with any path) succeeds; while the first's signal is
never closed the gate stays held and a second Acquire blocks (no step is
possible); and the path argument is ignored entirely, so all of this is
insensitive to the paths passed. -/
theorem lead_gate_in_process (p1 p2 : String) :
    leadAcquire p1 .free = some .held
    ∧ closeLeadChan .held = .free
    ∧ leadAcquire p2 (closeLeadChan .held) = some .held
    ∧ leadAcquire p2 .held = none
    ∧ (∀ (q1 q2 : String) (g : GateState), leadAcquire q1 g = leadAcquire q2 g) :=
  ⟨rfl, rfl, rfl, rfl, fun _ _ g => by cases g <;> rfl⟩

/-- C3: root resolution follows the fixed precedence test-mode >
command-line flag > environment variable, first match wins: under a test
harness (argument zero contains "_test") the fixed test
temporary-directory path is returned; otherwise a non-empty flag value is
returned after URL-to-internal normalization; otherwise a non-empty
environment value is returned after the same normalization; and with none
of the three set the process terminates (`none`).  The normalization
replaces a leading `gs://` scheme by the internal `/gcs/` prefix and
leaves every other value unchanged. -/
theorem rootDir_precedence (tmpDir args0 flagRoot envRoot : String) :
    (strContains args0 "_test" = true →
        rootDir tmpDir args0 flagRoot envRoot = some (testRoot tmpDir))
    ∧ (strContains args0 "_test" = false → flagRoot ≠ "" →
        rootDir tmpDir args0 flagRoot envRoot = some (toInternalIfGcs flagRoot))
    ∧ (strContains args0 "_test" = false → flagRoot = "" → envRoot ≠ "" →
        rootDir tmpDir args0 flagRoot envRoot = some (toInternalIfGcs envRoot))
    ∧ (strContains args0 "_test" = false → flagRoot = "" → envRoot = "" →
        rootDir tmpDir args0 flagRoot envRoot = none)
    ∧ (∀ s : String, strHasPrefix s gcsURLPrefix = true →
        toInternalIfGcs s = gcsPathPrefix ++ strTrimPrefix s gcsURLPrefix)
    ∧ (∀ s : String, strHasPrefix s gcsURLPrefix = false → toInternalIfGcs s = s) := by
  refine ⟨?_, ?_, ?_, ?_, ?_, ?_⟩
  · intro ht; simp [rootDir, ht]
  · intro ht hf; simp [rootDir, ht, hf]
  · intro ht hf he; simp [rootDir, ht, hf, he]
  · intro ht hf he; simp [rootDir, ht, hf, he]
  · intro s hs; simp [toInternalIfGcs, hs]
  · intro s hs; simp [toInternalIfGcs, hs]

/-- C3 witness: with test mode off and both the flag and the environment
variable set, the flag wins and its `gs://` scheme is normalized to the
internal `/gcs/` prefix. -/
theorem rootDir_precedence_witness :
    strContains "saxserver" "_test" = false
    ∧ ("gs://bucket/sax-root" : String) ≠ ""
    ∧ rootDir "/tmp" "saxserver" "gs://bucket/sax-root" "/other/root" =
        some (toInternalIfGcs "gs://bucket/sax-root")
    ∧ strHasPrefix "gs://bucket/sax-root" gcsURLPrefix = true
    ∧ toInternalIfGcs "gs://bucket/sax-root" =
        gcsPathPrefix ++ strTrimPrefix "gs://bucket/sax-root" gcsURLPrefix :=
  ⟨by decide, by decide,
    (rootDir_precedence "/tmp" "saxserver" "gs://bucket/sax-root" "/other/root").2.1
      (by decide) (by decide),
    by decide,
    (rootDir_precedence "/tmp" "saxserver" "gs://bucket/sax-root" "/other/root").2.2.2.2.1
      "gs://bucket/sax-root" (by decide)⟩

/-- C7: on the local backend the existence checks enforce path-type
matching: FileExists on a path that stats as a directory fails with a
failed-precondition condition, DirExists on a path that stats as a regular
file fails with a failed-precondition condition, a "not found" stat result
maps to `(false, no error)` in both, and any other stat failure propagates
as an error in both. -/
theorem local_exists_type_mismatch (w : World) (path : String)
    (hp : strHasPrefix path gcsPathPrefix = false) :
    (statOf w.fs path = .isDir → envFileExists w path = .error .failedPrecondition)
    ∧ (statOf w.fs path = .isFile → envDirExists w path = .error .failedPrecondition)
    ∧ (statOf w.fs path = .notExist →
        envFileExists w path = .ok false ∧ envDirExists w path = .ok false)
    ∧ (statOf w.fs path = .statError →
        envFileExists w path = .error .ioError ∧ envDirExists w path = .error .ioError) := by
  refine ⟨?_, ?_, ?_, ?_⟩ <;> intro hs <;>
    simp [envFileExists, envDirExists, hp, hs]

/-- C7 witness: on a world whose local filesystem has a directory at
`/cell`, a file at `/f`, nothing at `/missing`, and a stat failure at
`/locked`, all four behaviors are exhibited. -/
theorem local_exists_type_mismatch_witness :
    envFileExists ⟨true, [], ⟨[("/cell", .dir), ("/f", .file [3])], ["/locked"]⟩, ""⟩
        "/cell" = .error .failedPrecondition
    ∧ envDirExists ⟨true, [], ⟨[("/cell", .dir), ("/f", .file [3])], ["/locked"]⟩, ""⟩
        "/f" = .error .failedPrecondition
    ∧ envFileExists ⟨true, [], ⟨[("/cell", .dir), ("/f", .file [3])], ["/locked"]⟩, ""⟩
        "/missing" = .ok false
    ∧ envDirExists ⟨true, [], ⟨[("/cell", .dir), ("/f", .file [3])], ["/locked"]⟩, ""⟩
        "/locked" = .error .ioError := by
  refine ⟨?_, ?_, ?_, ?_⟩
  · exact (local_exists_type_mismatch _ "/cell" (by decide)).1 (by decide)
  · exact (local_exists_type_mismatch _ "/f" (by decide)).2.1 (by decide)
  · exact ((local_exists_type_mismatch _ "/missing" (by decide)).2.2.1 (by decide)).1
  · exact ((local_exists_type_mismatch _ "/locked" (by decide)).2.2.2 (by decide)).2

/-- C10: when the remote store handle is absent, every remote-path
operation — ReadFile, WriteFile, FileExists, CreateDir (with an empty
ACL), ListSubdirs, DirExists — fails with the failed-precondition
condition, for every `/gcs/`-prefixed path including malformed ones
missing the container/key separator: the handle-presence check precedes
path validation in the shared resolver. -/
theorem gcs_failed_precondition_priority (w : World) (path : String) (data : List Nat)
    (hc : w.client = false) (hp : strHasPrefix path gcsPathPrefix = true) :
    envReadFile w path = .error .failedPrecondition
    ∧ envWriteFile w path data = .error .failedPrecondition
    ∧ envFileExists w path = .error .failedPrecondition
    ∧ envCreateDir w path "" = .error .failedPrecondition
    ∧ envListSubdirs w path = .error .failedPrecondition
    ∧ envDirExists w path = .error .failedPrecondition := by
  refine ⟨?_, ?_, ?_, ?_, ?_, ?_⟩ <;>
    simp [envReadFile, envWriteFile, envFileExists, envCreateDir, envListSubdirs,
      envDirExists, gcsBucketAndObject, hc, hp]

/-- C10 witness: with the handle absent, all six operations fail with the
failed-precondition condition on the malformed remote path `/gcs/nobucket`
(no separator after the stripped prefix), showing the precondition error
takes priority over the invalid-argument error. -/
theorem gcs_failed_precondition_priority_witness :
    '/' ∉ (strTrimPrefix "/gcs/nobucket" gcsPathPrefix).toList
    ∧ envReadFile ⟨false, [], ⟨[], []⟩, ""⟩ "/gcs/nobucket" = .error .failedPrecondition
    ∧ envWriteFile ⟨false, [], ⟨[], []⟩, ""⟩ "/gcs/nobucket" [0] =
        .error .failedPrecondition
    ∧ envFileExists ⟨false, [], ⟨[], []⟩, ""⟩ "/gcs/nobucket" =
        .error .failedPrecondition
    ∧ envCreateDir ⟨false, [], ⟨[], []⟩, ""⟩ "/gcs/nobucket" "" =
        .error .failedPrecondition
    ∧ envListSubdirs ⟨false, [], ⟨[], []⟩, ""⟩ "/gcs/nobucket" =
        .error .failedPrecondition
    ∧ envDirExists ⟨false, [], ⟨[], []⟩, ""⟩ "/gcs/nobucket" =
        .error .failedPrecondition :=
  ⟨by decide,
    gcs_failed_precondition_priority ⟨false, [], ⟨[], []⟩, ""⟩ "/gcs/nobucket" [0]
      rfl (by decide)⟩

/-- C6: a successful CreateDir with an empty ACL followed by DirExists on
the same path returns true on both backends: on the remote backend both
operations address the same marker object at `filepath.Join(path, "METADATA")`
(CreateDir writes a zero-length object there, DirExists checks exactly
that object), and on the local backend CreateDir creates the directory
that DirExists then stats as a directory. -/
theorem createDir_then_dirExists (w w2 : World) (path : String)
    (h : envCreateDir w path "" = .ok w2) :
    envDirExists w2 path = .ok true := by
  unfold envCreateDir at h
  rw [if_neg (by simp)] at h
  by_cases hp : strHasPrefix path gcsPathPrefix = true
  · rw [if_pos hp] at h
    cases hobj : gcsBucketAndObject w.client (joinPath path metadataFile) with
    | error e => rw [hobj] at h; cases h
    | ok bk =>
      obtain ⟨b, k⟩ := bk
      rw [hobj] at h
      simp only [Except.ok.injEq] at h
      subst h
      unfold envDirExists
      rw [if_pos hp]
      have hcl : ({ w with objects := putAssoc w.objects (b, k) [] } : World).client
          = w.client := rfl
      rw [hcl, hobj]
      simp [getAssoc_putAssoc_same]
  · rw [if_neg hp] at h
    cases hmk : mkdirAll w.fs path with
    | error e => rw [hmk] at h; cases h
    | ok fs2 =>
      rw [hmk] at h
      simp only [Except.ok.injEq] at h
      subst h
      have hstat : statOf fs2 path = .isDir :=
        mkdirAllGo_ok_statOf w.fs fs2 path (path.length + 1) hmk
      unfold envDirExists
      rw [if_neg hp]
      have hfs : ({ w with fs := fs2 } : World).fs = fs2 := rfl
      rw [hfs, hstat]

/-- C6 witness: on an initially empty world with the handle present,
creating the remote directory `/gcs/bkt/cell` writes the zero-length
marker object `cell/METADATA` in bucket `bkt`, and DirExists on the
resulting world returns true. -/
theorem createDir_then_dirExists_witness :
    envCreateDir ⟨true, [], ⟨[], []⟩, ""⟩ "/gcs/bkt/cell" "" =
      .ok ⟨true, [(("bkt", "cell/METADATA"), [])], ⟨[], []⟩, ""⟩
    ∧ envDirExists ⟨true, [(("bkt", "cell/METADATA"), [])], ⟨[], []⟩, ""⟩
        "/gcs/bkt/cell" = .ok true := by
  have h : envCreateDir ⟨true, [], ⟨[], []⟩, ""⟩ "/gcs/bkt/cell" "" =
      .ok ⟨true, [(("bkt", "cell/METADATA"), [])], ⟨[], []⟩, ""⟩ := by decide
  exact ⟨h, createDir_then_dirExists _ _ _ h⟩

/-- C1 (code bug): `ListSubdirs` on a remote directory whose immediate
children are exactly the subdirectories `a` and `b` (each encoded by its
marker object, exactly as `CreateDir` lays them out) returns the empty
list, not the name segments `a` and `b`: the GCS listing query uses the
full unstripped `/gcs/bucket/...` path as the object-key prefix, which no
object key carries, and collects the `Name` attribute, which is the full
key for an object and empty for a collapsed one-level prefix entry — so
bare child names can never be produced.  The local backend, by contrast,
does return the entry names. -/
theorem listSubdirs_gcs_returns_no_names :
    envListSubdirs
        ⟨true, [(("bkt", "cell/a/METADATA"), []), (("bkt", "cell/b/METADATA"), [])],
          ⟨[], []⟩, ""⟩ "/gcs/bkt/cell/" = .ok []
    ∧ envListSubdirs
        ⟨true, [(("bkt", "cell/a/METADATA"), []), (("bkt", "cell/b/METADATA"), [])],
          ⟨[("/cell", .dir), ("/cell/a", .dir), ("/cell/b", .dir)], []⟩, ""⟩
        "/cell" = .ok ["a", "b"] := by
  constructor
  · decide
  · decide
